import Mathlib

/-!
Shallow embedding of the InvestFlow valuation core: the history
reconstructor (`chartData` of the NetWorthChart component), the
cross-sectional aggregators (`balanceSheet`, `topAssets`, `riskProfile`,
`pnlRanking` of the Analytics component) and the valuation snapshot.
Money amounts are rationals; calendar days are integers (days since the
Unix epoch) and JS `Date` calendar operations are modelled on civil dates.
-/

namespace InvestFlow

/-- Asset class tags (`AssetType` of `types.ts`). -/
inductive AssetType where
  | stock | crypto | fund | cash | realEstate | liability
deriving DecidableEq, Repr

/-- Transaction kinds (`TransactionType` of `types.ts`). -/
inductive TransactionType where
  | buy | sell
deriving DecidableEq, Repr

/-- An asset row: quantity, average cost and current price are in the
asset's native currency. -/
structure Asset where
  id : String
  symbol : String
  type : AssetType
  quantity : ℚ
  avgCost : ℚ
  currentPrice : ℚ
  currency : String
deriving DecidableEq, Repr

/-- A ledger transaction; `date` is a calendar day (days since epoch),
`total` is the precomputed quantity×price ± fee. -/
structure Transaction where
  assetId : String
  type : TransactionType
  date : Int
  quantity : ℚ
  price : ℚ
  fee : ℚ
  total : ℚ
deriving DecidableEq, Repr

/-- The exchange-rate snapshot, as the multiplicative rate for each
ordered currency pair. -/
abbrev ExchangeRates := String → String → ℚ

/-- Modelled from the spec: the Currency Converter external collaborator
(`convertValue` of `services/marketData.ts`, which is not under `src/`).
The spec gives it as a pure function
`convert(amount, fromCurrency, toCurrency, rateTable) -> amount`, assumed
available and correct; converting a currency to itself is the identity. -/
def convertValue (v : ℚ) (src dst : String) (rates : ExchangeRates) : ℚ :=
  if src = dst then v else v * rates src dst

/-- Base-currency market value of an asset: `quantity × currentPrice`
converted. -/
def assetValue (base : String) (rates : ExchangeRates) (a : Asset) : ℚ :=
  convertValue (a.quantity * a.currentPrice) a.currency base rates

/-- Base-currency cost of an asset: `quantity × avgCost` converted. -/
def assetCost (base : String) (rates : ExchangeRates) (a : Asset) : ℚ :=
  convertValue (a.quantity * a.avgCost) a.currency base rates

/-- `currentNetWorth` accumulator of `chartData`: liabilities subtract,
everything else adds. -/
def currentNetWorth (assets : List Asset) (base : String) (rates : ExchangeRates) : ℚ :=
  assets.foldl
    (fun acc a =>
      if a.type = .liability then acc - assetValue base rates a
      else acc + assetValue base rates a) 0

/-- `currentCostBasis` accumulator of `chartData`. -/
def currentCostBasis (assets : List Asset) (base : String) (rates : ExchangeRates) : ℚ :=
  assets.foldl
    (fun acc a =>
      if a.type = .liability then acc - assetCost base rates a
      else acc + assetCost base rates a) 0

/-! ### Calendar model for JS `Date` operations -/

/-- A civil (proleptic Gregorian) calendar date. -/
structure CivilDate where
  year : Int
  month : Int
  day : Int
deriving DecidableEq, Repr

/-- Gregorian leap-year rule. -/
def isLeap (y : Int) : Bool :=
  (y % 4 == 0 && y % 100 != 0) || y % 400 == 0

/-- Number of days in a month. -/
def daysInMonth (y : Int) (m : Int) : Int :=
  if m = 2 then (if isLeap y then 29 else 28)
  else if m = 4 ∨ m = 6 ∨ m = 9 ∨ m = 11 then 30
  else 31

/-- A well-formed civil date (what `new Date()` can hold). -/
def CivilDate.Valid (c : CivilDate) : Prop :=
  1 ≤ c.month ∧ c.month ≤ 12 ∧ 1 ≤ c.day ∧ c.day ≤ daysInMonth c.year c.month

instance (c : CivilDate) : Decidable c.Valid := by
  unfold CivilDate.Valid; infer_instance

/-- Days since 1970-01-01 of a civil date (civil-from-days algorithm,
floor divisions written with `Int.ediv`). -/
def daysFromCivil (c : CivilDate) : Int :=
  let y := if c.month ≤ 2 then c.year - 1 else c.year
  let era := y / 400
  let yoe := y - era * 400
  let mp := (c.month + 9) % 12
  let doy := (153 * mp + 2) / 5 + c.day - 1
  let doe := yoe * 365 + yoe / 4 - yoe / 100 + doy
  era * 146097 + doe - 719468

/-- JS `Date.prototype.setFullYear` at day granularity: the month and day
are kept, except that Feb 29 normalizes to Mar 1 when the target year is
not a leap year. -/
def setFullYearCivil (c : CivilDate) (newYear : Int) : CivilDate :=
  if c.month = 2 ∧ c.day = 29 ∧ isLeap newYear = false then ⟨newYear, 3, 1⟩
  else ⟨newYear, c.month, c.day⟩

/-- The range selector enumeration of the NetWorthChart. -/
inductive TimeRange where
  | w1 | m1 | m3 | m6 | y1 | all
deriving DecidableEq, Repr

/-- Earliest transaction day (`Math.min` over parsed transaction dates). -/
def earliestTxDay (txs : List Transaction) : Option Int :=
  (txs.map Transaction.date).min?

/-- Start day of the reconstruction window (`startDate` of `chartData`):
fixed day offsets for 1W/1M/3M/6M, `setFullYear(year-1)` for 1Y, and for
ALL either one week before the earliest transaction or, with no
transactions, `setFullYear(year-5)` followed by `setFullYear(year-1)`. -/
def rangeStartDay (range : TimeRange) (today : CivilDate) (txs : List Transaction) : Int :=
  let todayDay := daysFromCivil today
  match range with
  | .w1 => todayDay - 7
  | .m1 => todayDay - 30
  | .m3 => todayDay - 90
  | .m6 => todayDay - 180
  | .y1 => daysFromCivil (setFullYearCivil today (today.year - 1))
  | .all =>
    match earliestTxDay txs with
    | some d => d - 7
    | none =>
      daysFromCivil (setFullYearCivil (setFullYearCivil today (today.year - 5)) (today.year - 1))

/-! ### Reverse replay -/

/-- Currency used to convert a transaction: the currency of the matching
asset, else the base currency (`txAsset ? txAsset.currency : baseCurrency`). -/
def txCurrency (assets : List Asset) (base : String) (tx : Transaction) : String :=
  match assets.find? (fun a => a.id == tx.assetId) with
  | some a => a.currency
  | none => base

/-- Undo one transaction's effect on the running cost basis: a Buy
subtracts the converted `total`, a Sell adds the converted
`quantity × price`. -/
def undoCostTx (assets : List Asset) (base : String) (rates : ExchangeRates)
    (c : ℚ) (tx : Transaction) : ℚ :=
  let cur := txCurrency assets base tx
  match tx.type with
  | .buy => c - convertValue tx.total cur base rates
  | .sell => c + convertValue (tx.quantity * tx.price) cur base rates

/-- Undo one transaction's effect on the running value: a Buy subtracts
the converted `total`, a Sell adds it. -/
def undoValueTx (assets : List Asset) (base : String) (rates : ExchangeRates)
    (v : ℚ) (tx : Transaction) : ℚ :=
  let cur := txCurrency assets base tx
  match tx.type with
  | .buy => v - convertValue tx.total cur base rates
  | .sell => v + convertValue tx.total cur base rates

/-- Running simulation state (`simulatedCost`, `simulatedValue`). -/
structure SimState where
  cost : ℚ
  value : ℚ
deriving DecidableEq, Repr

/-- One point of the reconstructed series. -/
structure DailyPoint where
  date : Int
  value : ℚ
  cost : ℚ
  pnl : ℚ
  pnlPercent : ℚ
deriving DecidableEq, Repr

/-- One iteration of the backward loop of `chartData` at day offset `i`:
undo the day's transactions on cost then on value, perturb the value when
`i > 0`, clamp the cost at 0, and emit the day's point. -/
def dayStep (assets : List Asset) (base : String) (rates : ExchangeRates) (vol : ℚ)
    (today : Int) (noise : Nat → ℚ) (i : Nat) (st : SimState) (dayTx : List Transaction) :
    SimState × DailyPoint :=
  let c1 := dayTx.foldl (undoCostTx assets base rates) st.cost
  let v1 := dayTx.foldl (undoValueTx assets base rates) st.value
  let v2 := if 0 < i then v1 - (noise i - 1/2) * vol * v1 else v1
  let c2 := if c1 < 0 then 0 else c1
  (⟨c2, v2⟩,
    { date := today - i
      value := v2
      cost := c2
      pnl := v2 - c2
      pnlPercent := if c2 ≠ 0 then (v2 - c2) / c2 * 100 else 0 })

/-- Transactions sorted newest-first (the `sortedTx` copy of `chartData`).
JS `Array.prototype.sort` guarantees some stable sort; we use a stable
structural one. -/
def sortTxDesc (txs : List Transaction) : List Transaction :=
  txs.insertionSort (fun a b => b.date ≤ a.date)

/-- Whether any held asset is crypto-tagged. -/
def hasCrypto (assets : List Asset) : Bool :=
  assets.any (fun a => a.type == .crypto)

/-- The backward day loop: `fuel` remaining iterations starting at day
offset `i`, emitting points newest-first as they are pushed. -/
def simDays (assets : List Asset) (base : String) (rates : ExchangeRates)
    (sortedTx : List Transaction) (vol : ℚ) (today : Int) (noise : Nat → ℚ) :
    Nat → Nat → SimState → List DailyPoint
  | 0, _, _ => []
  | fuel + 1, i, st =>
    let dayTx := sortedTx.filter (fun t => t.date == today - (i : Int))
    let step := dayStep assets base rates vol today noise i st dayTx
    step.2 :: simDays assets base rates sortedTx vol today noise fuel (i + 1) step.1

/-- The history reconstructor (`chartData` of the NetWorthChart): empty
for an empty asset list, otherwise the backward simulation from today to
the range start, reversed to oldest-first. `noise i` is the `Math.random()`
draw of day offset `i`. -/
def reconstruct (assets : List Asset) (txs : List Transaction) (range : TimeRange)
    (base : String) (rates : ExchangeRates) (today : CivilDate) (noise : Nat → ℚ) :
    List DailyPoint :=
  if assets = [] then []
  else
    let todayDay := daysFromCivil today
    let nw := currentNetWorth assets base rates
    let cb := currentCostBasis assets base rates
    let start := rangeStartDay range today txs
    let daysDiff := todayDay - start
    let vol : ℚ := if hasCrypto assets then 2/100 else 8/1000
    (simDays assets base rates (sortTxDesc txs) vol todayDay noise
      (daysDiff + 1).toNat 0 ⟨cb, nw⟩).reverse

/-! ### Cross-sectional aggregators (the Analytics component) -/

/-- A top-holdings entry. -/
structure Holding where
  name : String
  value : ℚ
  cost : ℚ
  pnl : ℚ
deriving DecidableEq, Repr

/-- The per-asset mapping used by `topAssets`. -/
def mkHolding (base : String) (rates : ExchangeRates) (a : Asset) : Holding :=
  let value := assetValue base rates a
  let cost := assetCost base rates a
  ⟨a.symbol, value, cost, value - cost⟩

/-- `topAssets`: non-liability assets mapped to value/cost/pnl, sorted
descending by value, truncated to the top 6. -/
def topAssets (assets : List Asset) (base : String) (rates : ExchangeRates) : List Holding :=
  (((assets.filter (fun a => !(a.type == .liability))).map (mkHolding base rates)).insertionSort
    (fun x y => y.value ≤ x.value)).take 6

/-- The balance-sheet summary; the source calls the last field `ratio`. -/
structure BalanceSheet where
  totalAssets : ℚ
  totalLiabilities : ℚ
  debtRatioPercent : ℚ
deriving DecidableEq, Repr

/-- The accumulation step of `balanceSheet`: liabilities feed the second
component, everything else the first. -/
def balanceStep (base : String) (rates : ExchangeRates) (p : ℚ × ℚ) (a : Asset) : ℚ × ℚ :=
  let v := assetValue base rates a
  if a.type = .liability then (p.1, p.2 + v) else (p.1 + v, p.2)

/-- `balanceSheet`: total non-liability value, total liability value, and
the debt ratio in percent, 0 unless the asset total is positive. -/
def balanceSheet (assets : List Asset) (base : String) (rates : ExchangeRates) : BalanceSheet :=
  let t := assets.foldl (balanceStep base rates) (0, 0)
  ⟨t.1, t.2, if 0 < t.1 then t.2 / t.1 * 100 else 0⟩

/-- The three running risk-tier sums of `riskProfile`. -/
structure RiskTotals where
  high : ℚ
  med : ℚ
  low : ℚ
deriving DecidableEq, Repr

/-- The accumulation step of `riskProfile`: liabilities are skipped,
crypto feeds High, stock feeds Medium, everything else feeds Low. -/
def riskStep (base : String) (rates : ExchangeRates) (t : RiskTotals) (a : Asset) : RiskTotals :=
  if a.type = .liability then t
  else
    let v := assetValue base rates a
    if a.type = .crypto then { t with high := t.high + v }
    else if a.type = .stock then { t with med := t.med + v }
    else if a.type = .realEstate then { t with low := t.low + v }
    else { t with low := t.low + v }

/-- The accumulation loop of `riskProfile`. -/
def riskTotals (assets : List Asset) (base : String) (rates : ExchangeRates) : RiskTotals :=
  assets.foldl (riskStep base rates) ⟨0, 0, 0⟩

/-- One emitted risk bucket. -/
structure RiskEntry where
  name : String
  value : ℚ
deriving DecidableEq, Repr

/-- `riskProfile`: empty when the tier total is 0, otherwise the three
tiers with the non-positive ones filtered out. -/
def riskProfile (assets : List Asset) (base : String) (rates : ExchangeRates) : List RiskEntry :=
  let t := riskTotals assets base rates
  if t.high + t.med + t.low = 0 then []
  else
    ([⟨"High (Crypto)", t.high⟩, ⟨"Medium (Stocks)", t.med⟩,
      ⟨"Low (Cash/Real Estate)", t.low⟩] : List RiskEntry).filter (fun e => decide (0 < e.value))

/-- One P&L-ranking entry. -/
structure PnlEntry where
  name : String
  pnl : ℚ
deriving DecidableEq, Repr

/-- The per-asset mapping used by `pnlRanking`. -/
def mkPnlEntry (base : String) (rates : ExchangeRates) (a : Asset) : PnlEntry :=
  ⟨a.symbol, assetValue base rates a - assetCost base rates a⟩

/-- `pnlRanking`: non-liability assets ranked descending by value − cost,
truncated to the top 8. -/
def pnlRanking (assets : List Asset) (base : String) (rates : ExchangeRates) : List PnlEntry :=
  (((assets.filter (fun a => !(a.type == .liability))).map (mkPnlEntry base rates)).insertionSort
    (fun x y => y.pnl ≤ x.pnl)).take 8

/-! ### Spec-modelled valuation snapshot builder (§4.1) -/

/-- Error taxonomy of §7. -/
inductive ValuationError where
  | missingExchangeRate (src dst : String)
deriving DecidableEq, Repr

/-- Modelled from the spec: the checked conversion underlying §4.1's
snapshot builder (`services/marketData.ts` is not under `src/`). A pair
absent from the rate table is a `MissingExchangeRate` error, never a
silent 1:1 fallback. -/
def convertChecked (v : ℚ) (src dst : String) (table : List ((String × String) × ℚ)) :
    Except ValuationError ℚ :=
  if src = dst then .ok v
  else
    match table.lookup (src, dst) with
    | some r => .ok (v * r)
    | none => .error (.missingExchangeRate src dst)

/-- Modelled from the spec: `buildSnapshot(assets, baseCurrency, rates)`
of §4.1 — convert every asset's value and cost into the base currency,
liabilities subtracting, and propagate any conversion error. -/
def buildSnapshot (assets : List Asset) (base : String)
    (table : List ((String × String) × ℚ)) : Except ValuationError (ℚ × ℚ) :=
  match assets with
  | [] => .ok (0, 0)
  | a :: rest =>
    match convertChecked (a.quantity * a.currentPrice) a.currency base table with
    | .error e => .error e
    | .ok v =>
      match convertChecked (a.quantity * a.avgCost) a.currency base table with
      | .error e => .error e
      | .ok cost =>
        match buildSnapshot rest base table with
        | .error e => .error e
        | .ok s =>
          if a.type = .liability then .ok (s.1 - v, s.2 - cost)
          else .ok (s.1 + v, s.2 + cost)

/-! ### Calendar lemmas -/

lemma daysCore_step (z : Int) :
    z / 400 * 146097 + ((z - z / 400 * 400) * 365
        + (z - z / 400 * 400) / 4 - (z - z / 400 * 400) / 100)
      + 365
    ≤ (z + 1) / 400 * 146097 + (((z + 1) - (z + 1) / 400 * 400) * 365
        + ((z + 1) - (z + 1) / 400 * 400) / 4 - ((z + 1) - (z + 1) / 400 * 400) / 100) := by
  obtain ⟨q, r, hz, hr0, hr1⟩ : ∃ q r, z = 400 * q + r ∧ 0 ≤ r ∧ r < 400 :=
    ⟨z / 400, z % 400, by omega, by omega, by omega⟩
  subst hz
  by_cases h : r = 399
  · subst h; omega
  · obtain ⟨a, b, hab, hb0, hb1⟩ : ∃ a b, r = 100 * a + b ∧ 0 ≤ b ∧ b < 100 :=
      ⟨r / 100, r % 100, by omega, by omega, by omega⟩
    subst hab
    by_cases hb : b = 99
    · subst hb; omega
    · omega

/-- Moving to the same calendar day of the next year advances the day
number by at least 365. -/
lemma daysFromCivil_succ_year (y m d : Int) :
    daysFromCivil ⟨y, m, d⟩ + 365 ≤ daysFromCivil ⟨y + 1, m, d⟩ := by
  simp only [daysFromCivil]
  split_ifs with h
  · have := daysCore_step (y - 1)
    omega
  · have := daysCore_step y
    omega

/-- `setFullYear(year - 1)` always lands strictly before the original day. -/
lemma setFullYearCivil_pred_lt (c : CivilDate) :
    daysFromCivil (setFullYearCivil c (c.year - 1)) < daysFromCivil c := by
  obtain ⟨y, m, d⟩ := c
  simp only [setFullYearCivil]
  split_ifs with hs
  · obtain ⟨hm, hd, _⟩ := hs
    subst hm hd
    simp only [daysFromCivil]
    norm_num
  · have step := daysFromCivil_succ_year (y - 1) m d
    have hy : y - 1 + 1 = y := by ring
    rw [hy] at step
    omega

/-- Bool-to-Prop unfolding of the leap-year test. -/
lemma isLeap_iff (y : Int) :
    isLeap y = true ↔ (y % 4 = 0 ∧ y % 100 ≠ 0) ∨ y % 400 = 0 := by
  simp [isLeap]

/-- A valid Feb 29 forces a leap year. -/
lemma valid_feb29 {c : CivilDate} (h : c.Valid) (hm : c.month = 2) (hd : c.day = 29) :
    isLeap c.year = true := by
  obtain ⟨h1, h2, h3, h4⟩ := h
  unfold daysInMonth at h4
  rw [hm] at h4
  simp only [if_pos rfl] at h4
  by_contra hl
  simp only [Bool.not_eq_true] at hl
  rw [hl] at h4
  simp at h4
  omega

/-- The ALL-with-no-transactions start (`setFullYear(year-5)` then
`setFullYear(year-1)`) collapses to a single `setFullYear(year-1)` for any
valid date. -/
lemma setFullYearCivil_year5_collapse (c : CivilDate) (hv : c.Valid) :
    setFullYearCivil (setFullYearCivil c (c.year - 5)) (c.year - 1)
      = setFullYearCivil c (c.year - 1) := by
  obtain ⟨y, m, d⟩ := c
  have hfacts : m = 2 → d = 29 → isLeap (y - 5) = false ∧ isLeap (y - 1) = false := by
    intro hm hd
    have hleap : isLeap y = true := valid_feb29 hv hm hd
    have h4 : y % 4 = 0 := by
      rcases (isLeap_iff y).mp hleap with ⟨h, _⟩ | h
      · exact h
      · omega
    constructor
    · rw [← Bool.not_eq_true, isLeap_iff]
      push_neg
      exact ⟨fun h => by omega, by omega⟩
    · rw [← Bool.not_eq_true, isLeap_iff]
      push_neg
      exact ⟨fun h => by omega, by omega⟩
  simp only [setFullYearCivil]
  split_ifs <;> first
    | rfl
    | (exfalso
       rename_i hA hB hC
       exact hC ⟨hA.1, hA.2.1, (hfacts hA.1 hA.2.1).2⟩)

/-- The resolved range start never lies after today, provided today is a
valid date and no transaction is dated in the future. -/
lemma rangeStartDay_le (range : TimeRange) (today : CivilDate) (txs : List Transaction)
    (hv : today.Valid) (htx : ∀ t ∈ txs, t.date < daysFromCivil today) :
    rangeStartDay range today txs ≤ daysFromCivil today := by
  cases range
  case w1 => simp only [rangeStartDay]; omega
  case m1 => simp only [rangeStartDay]; omega
  case m3 => simp only [rangeStartDay]; omega
  case m6 => simp only [rangeStartDay]; omega
  case y1 =>
    simp only [rangeStartDay]
    have := setFullYearCivil_pred_lt today
    omega
  case all =>
    simp only [rangeStartDay]
    cases h : earliestTxDay txs with
    | some dmin =>
      have hmem : dmin ∈ txs.map Transaction.date :=
        List.min?_mem (fun a b => min_choice a b) h
      obtain ⟨t, ht, hd⟩ := List.mem_map.mp hmem
      have := htx t ht
      show dmin - 7 ≤ daysFromCivil today
      omega
    | none =>
      show daysFromCivil (setFullYearCivil (setFullYearCivil today (today.year - 5))
        (today.year - 1)) ≤ daysFromCivil today
      rw [setFullYearCivil_year5_collapse today hv]
      have := setFullYearCivil_pred_lt today
      omega

/-! ### Replay-loop lemmas -/

lemma simDays_length (assets : List Asset) (base : String) (rates : ExchangeRates)
    (sortedTx : List Transaction) (vol : ℚ) (today : Int) (noise : Nat → ℚ) :
    ∀ (fuel i : Nat) (st : SimState),
      (simDays assets base rates sortedTx vol today noise fuel i st).length = fuel
  | 0, _, _ => rfl
  | fuel + 1, i, st => by
    simp only [simDays, List.length_cons,
      simDays_length assets base rates sortedTx vol today noise fuel]

lemma simDays_map_date (assets : List Asset) (base : String) (rates : ExchangeRates)
    (sortedTx : List Transaction) (vol : ℚ) (today : Int) (noise : Nat → ℚ) :
    ∀ (fuel i : Nat) (st : SimState),
      (simDays assets base rates sortedTx vol today noise fuel i st).map DailyPoint.date
        = (List.range fuel).map (fun (k : Nat) => today - (i : Int) - (k : Int))
  | 0, _, _ => rfl
  | fuel + 1, i, st => by
    rw [List.range_succ_eq_map]
    simp only [simDays, List.map_cons, List.map_map]
    refine congrArg₂ List.cons ?_ ?_
    · show today - (i : Int) = today - (i : Int) - ((0 : Nat) : Int)
      simp
    · rw [simDays_map_date assets base rates sortedTx vol today noise fuel (i + 1)]
      refine List.map_congr_left fun k _ => ?_
      simp only [Function.comp_apply]
      push_cast
      ring

lemma simDays_pnlPercent_zero (assets : List Asset) (base : String) (rates : ExchangeRates)
    (sortedTx : List Transaction) (vol : ℚ) (today : Int) (noise : Nat → ℚ) :
    ∀ (fuel i : Nat) (st : SimState) (p : DailyPoint),
      p ∈ simDays assets base rates sortedTx vol today noise fuel i st →
      p.cost = 0 → p.pnlPercent = 0
  | 0, _, _, _, h => by simp [simDays] at h
  | fuel + 1, i, st, p, h => by
    simp only [simDays, List.mem_cons] at h
    rcases h with h | h
    · intro hc
      subst h
      simp only [dayStep] at hc ⊢
      rw [hc]
      simp
    · exact simDays_pnlPercent_zero assets base rates sortedTx vol today noise fuel (i + 1) _ p h

/-- Unfolding of `reconstruct` for a non-empty asset list. -/
lemma reconstruct_eq {assets : List Asset} (txs : List Transaction) (range : TimeRange)
    (base : String) (rates : ExchangeRates) (today : CivilDate) (noise : Nat → ℚ)
    (h : ¬ assets = []) :
    reconstruct assets txs range base rates today noise
      = (simDays assets base rates (sortTxDesc txs)
          (if hasCrypto assets then 2/100 else 8/1000) (daysFromCivil today) noise
          (daysFromCivil today - rangeStartDay range today txs + 1).toNat 0
          ⟨currentCostBasis assets base rates, currentNetWorth assets base rates⟩).reverse := by
  rw [reconstruct, if_neg h]

/-- The number of points is the day span plus one (0 when the window is
empty or there are no assets). -/
lemma reconstruct_length (assets : List Asset) (txs : List Transaction) (range : TimeRange)
    (base : String) (rates : ExchangeRates) (today : CivilDate) (noise : Nat → ℚ) :
    (reconstruct assets txs range base rates today noise).length
      = if assets = [] then 0
        else (daysFromCivil today - rangeStartDay range today txs + 1).toNat := by
  by_cases h : assets = []
  · rw [reconstruct, if_pos h, if_pos h]
    rfl
  · rw [reconstruct_eq txs range base rates today noise h, if_neg h,
      List.length_reverse, simDays_length]

/-- Consecutive emitted dates differ by exactly one day, oldest first. -/
lemma reconstruct_dates_chain (assets : List Asset) (txs : List Transaction) (range : TimeRange)
    (base : String) (rates : ExchangeRates) (today : CivilDate) (noise : Nat → ℚ) :
    List.Chain' (fun p q : DailyPoint => q.date = p.date + 1)
      (reconstruct assets txs range base rates today noise) := by
  by_cases h : assets = []
  · rw [reconstruct, if_pos h]
    exact List.chain'_nil
  · rw [reconstruct_eq txs range base rates today noise h]
    refine (@List.chain'_map Int DailyPoint (fun a b : Int => b = a + 1)
      DailyPoint.date _).mp ?_
    rw [List.map_reverse, simDays_map_date]
    rw [List.chain'_reverse]
    refine (@List.chain'_map Int Nat _ (fun (k : Nat) =>
      daysFromCivil today - ((0 : Nat) : Int) - (k : Int)) _).mpr ?_
    generalize (daysFromCivil today - rangeStartDay range today txs + 1).toNat = fuel
    cases fuel with
    | zero => exact List.chain'_nil
    | succ n =>
      refine (List.chain'_range_succ _ n).mpr fun m hm => ?_
      show daysFromCivil today - ((0 : Nat) : Int) - (m : Int)
        = daysFromCivil today - ((0 : Nat) : Int) - ((m + 1 : Nat) : Int) + 1
      push_cast
      ring

lemma sortTxDesc_filter_eq_nil {txs : List Transaction} {d : Int}
    (h : ∀ t ∈ txs, t.date ≠ d) :
    (sortTxDesc txs).filter (fun t => t.date == d) = [] := by
  rw [List.filter_eq_nil_iff]
  intro t ht
  simp only [sortTxDesc, List.mem_insertionSort] at ht
  simp only [beq_iff_eq]
  exact h t ht

/-- The last (newest) returned point is the day-0 step applied to the
snapshot state, whenever the window is non-empty. -/
lemma reconstruct_getLast (assets : List Asset) (txs : List Transaction) (range : TimeRange)
    (base : String) (rates : ExchangeRates) (today : CivilDate) (noise : Nat → ℚ)
    (h : ¬ assets = []) (hv : today.Valid)
    (htx : ∀ t ∈ txs, t.date < daysFromCivil today) :
    (reconstruct assets txs range base rates today noise).getLast?
      = some (dayStep assets base rates
          (if hasCrypto assets then 2/100 else 8/1000) (daysFromCivil today) noise 0
          ⟨currentCostBasis assets base rates, currentNetWorth assets base rates⟩
          ((sortTxDesc txs).filter
            (fun t => t.date == daysFromCivil today - ((0 : Nat) : Int)))).2 := by
  rw [reconstruct_eq txs range base rates today noise h, List.getLast?_reverse]
  have hge := rangeStartDay_le range today txs hv htx
  obtain ⟨n, hn⟩ : ∃ n,
      (daysFromCivil today - rangeStartDay range today txs + 1).toNat = n + 1 :=
    ⟨(daysFromCivil today - rangeStartDay range today txs).toNat, by omega⟩
  rw [hn]
  rfl

/-! ### Fixtures -/

/-- Fixture: a single US stock worth 1000 with cost 800. -/
def sampleAssets : List Asset := [⟨"a1", "AAA", .stock, 10, 80, 100, "USD"⟩]

/-- Fixture: the unit rate table. -/
def unitRates : ExchangeRates := fun _ _ => 1

/-- Fixture: the deterministic midpoint noise draw. -/
def halfNoise : Nat → ℚ := fun _ => 1/2

/-- Fixture: 2024-06-15 as "today" (one year back spans the leap day
Feb 29, 2024). -/
def sampleToday : CivilDate := ⟨2024, 6, 15⟩

/-- Fixture: a buy of 50 USD dated "today". -/
def buyToday : Transaction := ⟨"a1", .buy, daysFromCivil sampleToday, 1, 50, 0, 50⟩

/-! ### C1 -/

/-- C1 is false as stated: for the transaction list holding a Buy dated
today, the i=0 (last) point of the reconstruction carries value 950 and
cost 750, not the snapshot's net worth 1000 and cost basis 800 — the
algorithm undoes today's own transactions before emitting the i=0 point. -/
theorem c1_counterexample :
    (reconstruct sampleAssets [buyToday] .w1 "USD" unitRates sampleToday halfNoise).getLast?.map
        (fun p => (p.value, p.cost))
      ≠ some (currentNetWorth sampleAssets "USD" unitRates,
          currentCostBasis sampleAssets "USD" unitRates) := by
  have hnw : currentNetWorth sampleAssets "USD" unitRates = 1000 := by
    norm_num [currentNetWorth, sampleAssets, assetValue, convertValue, unitRates]
    all_goals decide
  have hcb : currentCostBasis sampleAssets "USD" unitRates = 800 := by
    norm_num [currentCostBasis, sampleAssets, assetCost, convertValue, unitRates]
    all_goals decide
  have hfuel : (daysFromCivil sampleToday
      - rangeStartDay .w1 sampleToday [buyToday] + 1).toNat = 7 + 1 := by decide
  have hfil : (sortTxDesc [buyToday]).filter
      (fun t => t.date == daysFromCivil sampleToday - ((0 : Nat) : Int)) = [buyToday] := by
    decide
  rw [reconstruct_eq [buyToday] .w1 "USD" unitRates sampleToday halfNoise (by decide),
    List.getLast?_reverse, hfuel]
  simp only [simDays, List.head?_cons, Option.map_some']
  rw [hfil]
  simp only [dayStep, List.foldl_cons, List.foldl_nil, Option.map_some',
    undoCostTx, undoValueTx, txCurrency, sampleAssets, buyToday, List.find?]
  norm_num [convertValue, unitRates, hnw, hcb]

/-- C1 (amended): for every non-empty asset list, any range, base
currency, rate table and noise draw, provided every transaction is dated
strictly before (valid) today and the snapshot cost basis is nonnegative,
the last (i=0) point of `reconstruct` has value exactly the snapshot net
worth and cost exactly the snapshot cost basis; the conclusion holds for
every noise function, so no random perturbation enters that point. -/
theorem c1_today_anchor (assets : List Asset) (txs : List Transaction) (range : TimeRange)
    (base : String) (rates : ExchangeRates) (today : CivilDate) (noise : Nat → ℚ)
    (h : assets ≠ []) (hv : today.Valid)
    (htx : ∀ t ∈ txs, t.date < daysFromCivil today)
    (hcb : 0 ≤ currentCostBasis assets base rates) :
    (reconstruct assets txs range base rates today noise).getLast?.map
        (fun p => (p.value, p.cost))
      = some (currentNetWorth assets base rates, currentCostBasis assets base rates) := by
  rw [reconstruct_getLast assets txs range base rates today noise h hv htx]
  have hfil : (sortTxDesc txs).filter
      (fun t => t.date == daysFromCivil today - ((0 : Nat) : Int)) = [] := by
    apply sortTxDesc_filter_eq_nil
    intro t ht
    have := htx t ht
    omega
  rw [hfil]
  simp only [dayStep, List.foldl_nil, Option.map_some']
  rw [if_neg (lt_irrefl 0), if_neg (not_lt.mpr hcb)]

/-- Witness for the amended C1 at the sample portfolio. -/
theorem c1_today_anchor_witness :
    (reconstruct sampleAssets [] .w1 "USD" unitRates sampleToday halfNoise).getLast?.map
        (fun p => (p.value, p.cost)) = some (1000, 800) := by
  have h := c1_today_anchor sampleAssets [] .w1 "USD" unitRates sampleToday halfNoise
    (by decide) (by decide) (by intro t ht; simp at ht)
    (by norm_num [currentCostBasis, sampleAssets, assetCost, convertValue, unitRates]
        all_goals decide)
  rw [h]
  norm_num [currentNetWorth, currentCostBasis, sampleAssets, assetValue, assetCost,
    convertValue, unitRates]
  all_goals decide

/-! ### C3 -/

/-- C3 is false as stated: range 1Y from 2024-06-15 reaches back to
2023-06-15, 366 days, so the series has 367 points, not 365 + 1. -/
theorem c3_counterexample :
    (reconstruct sampleAssets [] .y1 "USD" unitRates sampleToday halfNoise).length
      ≠ 365 + 1 := by
  rw [reconstruct_length]
  decide

/-- C3 (amended): for every non-empty asset list the series has exactly
`daysInRange + 1` points with `daysInRange` = 7/30/90/180 for 1W/1M/3M/6M
and, for 1Y, the day span back to the same calendar date one year earlier
(365 or 366 days, Feb 29 normalizing to Mar 1); and for every range the
dates are strictly increasing consecutive calendar days, oldest first,
with no gaps and no duplicates. -/
theorem c3_series_shape (assets : List Asset) (txs : List Transaction)
    (base : String) (rates : ExchangeRates) (today : CivilDate) (noise : Nat → ℚ)
    (h : assets ≠ []) :
    (reconstruct assets txs .w1 base rates today noise).length = 7 + 1
    ∧ (reconstruct assets txs .m1 base rates today noise).length = 30 + 1
    ∧ (reconstruct assets txs .m3 base rates today noise).length = 90 + 1
    ∧ (reconstruct assets txs .m6 base rates today noise).length = 180 + 1
    ∧ (reconstruct assets txs .y1 base rates today noise).length
        = (daysFromCivil today
            - daysFromCivil (setFullYearCivil today (today.year - 1)) + 1).toNat
    ∧ ∀ range, List.Chain' (fun p q : DailyPoint => q.date = p.date + 1)
        (reconstruct assets txs range base rates today noise) := by
  refine ⟨?_, ?_, ?_, ?_, ?_,
    fun range => reconstruct_dates_chain assets txs range base rates today noise⟩
  all_goals rw [reconstruct_length, if_neg h]
  all_goals simp only [rangeStartDay]
  all_goals omega

/-- Witness for the amended C3 at the sample portfolio: 8 points for 1W
and 367 points for 1Y across the 2024 leap day. -/
theorem c3_series_shape_witness :
    (reconstruct sampleAssets [] .w1 "USD" unitRates sampleToday halfNoise).length = 7 + 1
    ∧ (reconstruct sampleAssets [] .y1 "USD" unitRates sampleToday halfNoise).length = 367 := by
  obtain ⟨h1, _, _, _, h5, _⟩ := c3_series_shape sampleAssets [] "USD" unitRates sampleToday
    halfNoise (by decide)
  refine ⟨h1, ?_⟩
  rw [h5]
  decide

/-! ### C2 -/

/-- C2: undoing a Buy decreases the running cost and the running value by
the transaction's base-currency total; undoing a Sell increases the
running cost by the base-currency quantity×price and the running value by
the base-currency total; and each day's emitted point carries the running
cost clamped at 0 (so it is nonnegative) after that day's undo step. -/
theorem c2_undo_and_clamp (assets : List Asset) (base : String) (rates : ExchangeRates)
    (c v : ℚ) (tx : Transaction) (vol : ℚ) (today : Int) (noise : Nat → ℚ)
    (i : Nat) (st : SimState) (dayTx : List Transaction) :
    (tx.type = .buy →
        undoCostTx assets base rates c tx
            = c - convertValue tx.total (txCurrency assets base tx) base rates
        ∧ undoValueTx assets base rates v tx
            = v - convertValue tx.total (txCurrency assets base tx) base rates)
    ∧ (tx.type = .sell →
        undoCostTx assets base rates c tx
            = c + convertValue (tx.quantity * tx.price) (txCurrency assets base tx) base rates
        ∧ undoValueTx assets base rates v tx
            = v + convertValue tx.total (txCurrency assets base tx) base rates)
    ∧ (dayStep assets base rates vol today noise i st dayTx).2.cost
        = max 0 (dayTx.foldl (undoCostTx assets base rates) st.cost)
    ∧ 0 ≤ (dayStep assets base rates vol today noise i st dayTx).2.cost := by
  have hclamp : (dayStep assets base rates vol today noise i st dayTx).2.cost
      = max 0 (dayTx.foldl (undoCostTx assets base rates) st.cost) := by
    simp only [dayStep]
    by_cases h : dayTx.foldl (undoCostTx assets base rates) st.cost < 0
    · rw [if_pos h]
      exact (max_eq_left (le_of_lt h)).symm
    · rw [if_neg h]
      exact (max_eq_right (not_lt.mp h)).symm
  refine ⟨fun h => ?_, fun h => ?_, hclamp, ?_⟩
  · constructor <;> simp [undoCostTx, undoValueTx, h]
  · constructor <;> simp [undoCostTx, undoValueTx, h]
  · rw [hclamp]
    exact le_max_left 0 _

/-- Witness for C2: the concrete buy transaction, and the day-0 clamp. -/
theorem c2_undo_and_clamp_witness :
    undoCostTx sampleAssets "USD" unitRates 800 buyToday
        = 800 - convertValue buyToday.total (txCurrency sampleAssets "USD" buyToday)
            "USD" unitRates
    ∧ 0 ≤ (dayStep sampleAssets "USD" unitRates (8/1000) (daysFromCivil sampleToday)
        halfNoise 0 ⟨800, 1000⟩ []).2.cost := by
  obtain ⟨hbuy, hsell, hclamp, hpos⟩ := c2_undo_and_clamp sampleAssets "USD" unitRates 800 1000
    buyToday (8/1000) (daysFromCivil sampleToday) halfNoise 0 ⟨800, 1000⟩ []
  exact ⟨(hbuy rfl).1, hpos⟩

/-! ### C10 -/

/-- C10: a transaction whose assetId matches no asset is neither a
failure nor skipped: its currency falls back to the base currency, so the
replay deltas are the raw transaction amounts with no conversion applied
(Buy: cost and value drop by `total`; Sell: cost rises by
`quantity × price` and value by `total`). -/
theorem c10_unknown_asset (assets : List Asset) (base : String) (rates : ExchangeRates)
    (c v : ℚ) (tx : Transaction)
    (h : assets.find? (fun a => a.id == tx.assetId) = none) :
    txCurrency assets base tx = base
    ∧ undoCostTx assets base rates c tx
        = (match tx.type with | .buy => c - tx.total | .sell => c + tx.quantity * tx.price)
    ∧ undoValueTx assets base rates v tx
        = (match tx.type with | .buy => v - tx.total | .sell => v + tx.total) := by
  have hcur : txCurrency assets base tx = base := by rw [txCurrency, h]
  refine ⟨hcur, ?_, ?_⟩
  · cases htx : tx.type <;> simp [undoCostTx, hcur, htx, convertValue]
  · cases htx : tx.type <;> simp [undoValueTx, hcur, htx, convertValue]

/-- Fixture: a sell transaction referencing an unknown asset id. -/
def orphanTx : Transaction := ⟨"zzz", .sell, 0, 2, 30, 0, 55⟩

/-- Witness for C10 at the orphan sell. -/
theorem c10_unknown_asset_witness :
    undoCostTx sampleAssets "USD" unitRates 100 orphanTx = 100 + 2 * 30
    ∧ undoValueTx sampleAssets "USD" unitRates 100 orphanTx = 100 + 55 := by
  obtain ⟨_, h2, h3⟩ := c10_unknown_asset sampleAssets "USD" unitRates 100 100 orphanTx
    (by decide)
  constructor
  · rw [h2]
    norm_num [orphanTx]
  · rw [h3]
    norm_num [orphanTx]

/-! ### C8 -/

/-- C8: the cross-sectional aggregators and the reconstructor are pure
functions of the input snapshot: identical inputs give identical outputs.
The source copies the input arrays before its in-place sorts, which is
what makes this pure-function translation faithful — no core computation
mutates the asset or transaction list. -/
theorem c8_determinism (assets : List Asset) (base : String) (rates : ExchangeRates)
    (txs : List Transaction) (range : TimeRange) (today : CivilDate) (noise : Nat → ℚ) :
    topAssets assets base rates = topAssets assets base rates
    ∧ pnlRanking assets base rates = pnlRanking assets base rates
    ∧ riskProfile assets base rates = riskProfile assets base rates
    ∧ balanceSheet assets base rates = balanceSheet assets base rates
    ∧ reconstruct assets txs range base rates today noise
        = reconstruct assets txs range base rates today noise :=
  ⟨rfl, rfl, rfl, rfl, rfl⟩

/-! ### C6 -/

/-- C6: zero denominators degrade to 0, never to division blowups: every
reconstructed point whose cost is 0 has pnlPercent 0, and the
balance-sheet debt ratio is 0 whenever the non-liability total is 0. -/
theorem c6_zero_denominators :
    (∀ (assets : List Asset) (txs : List Transaction) (range : TimeRange) (base : String)
        (rates : ExchangeRates) (today : CivilDate) (noise : Nat → ℚ) (p : DailyPoint),
        p ∈ reconstruct assets txs range base rates today noise →
        p.cost = 0 → p.pnlPercent = 0)
    ∧ ∀ (assets : List Asset) (base : String) (rates : ExchangeRates),
        (balanceSheet assets base rates).totalAssets = 0 →
        (balanceSheet assets base rates).debtRatioPercent = 0 := by
  constructor
  · intro assets txs range base rates today noise p hp hc
    by_cases h : assets = []
    · rw [reconstruct, if_pos h] at hp
      simp at hp
    · rw [reconstruct_eq txs range base rates today noise h, List.mem_reverse] at hp
      exact simDays_pnlPercent_zero assets base rates (sortTxDesc txs) _ _ noise _ _ _ p hp hc
  · intro assets base rates h
    simp only [balanceSheet] at h ⊢
    rw [h]
    norm_num

/-- Fixture: a single stock with zero average cost. -/
def zeroCostAssets : List Asset := [⟨"a1", "AAA", .stock, 10, 0, 100, "USD"⟩]

/-- Witness for C6: the today point of the zero-cost portfolio, and the
empty balance sheet. -/
theorem c6_zero_denominators_witness :
    ∃ p : DailyPoint,
      p ∈ reconstruct zeroCostAssets [] .w1 "USD" unitRates sampleToday halfNoise
      ∧ p.pnlPercent = 0
      ∧ (balanceSheet [] "USD" unitRates).debtRatioPercent = 0 := by
  have hlast := reconstruct_getLast zeroCostAssets [] .w1 "USD" unitRates sampleToday halfNoise
    (by decide) (by decide) (by simp)
  refine ⟨_, List.mem_of_getLast?_eq_some hlast, ?_, ?_⟩
  · refine c6_zero_denominators.1 zeroCostAssets [] .w1 "USD" unitRates sampleToday halfNoise _
      (List.mem_of_getLast?_eq_some hlast) ?_
    norm_num [dayStep, sortTxDesc, List.insertionSort, List.filter_nil, List.foldl_nil,
      currentCostBasis, zeroCostAssets, assetCost, convertValue, unitRates]
  · norm_num [balanceSheet]

/-! ### C4 -/

/-- The risk-tier sums track the balance-sheet asset total step by step. -/
lemma riskTotals_partition (base : String) (rates : ExchangeRates) :
    ∀ (l : List Asset) (t : RiskTotals) (p : ℚ × ℚ),
      t.high + t.med + t.low = p.1 →
      ((l.foldl (riskStep base rates) t).high + (l.foldl (riskStep base rates) t).med
        + (l.foldl (riskStep base rates) t).low)
        = (l.foldl (balanceStep base rates) p).1
  | [], t, p, h => by simpa using h
  | a :: l, t, p, h => by
    simp only [List.foldl_cons]
    apply riskTotals_partition base rates l
    cases ha : a.type <;> simp [riskStep, balanceStep, ha] <;> linarith

/-- C4: the three risk tiers partition the non-liability total exactly:
High + Medium + Low equals the balance-sheet asset total; every emitted
bucket has positive value (zero buckets are omitted); and whenever the
total is nonzero, each positive tier does appear in the result. -/
theorem c4_risk_partition (assets : List Asset) (base : String) (rates : ExchangeRates) :
    ((riskTotals assets base rates).high + (riskTotals assets base rates).med
        + (riskTotals assets base rates).low
      = (balanceSheet assets base rates).totalAssets)
    ∧ (∀ e ∈ riskProfile assets base rates, 0 < e.value)
    ∧ ((riskTotals assets base rates).high + (riskTotals assets base rates).med
          + (riskTotals assets base rates).low ≠ 0 →
        ∀ t ∈ [RiskEntry.mk "High (Crypto)" (riskTotals assets base rates).high,
              RiskEntry.mk "Medium (Stocks)" (riskTotals assets base rates).med,
              RiskEntry.mk "Low (Cash/Real Estate)" (riskTotals assets base rates).low],
          0 < t.value → t ∈ riskProfile assets base rates) := by
  refine ⟨?_, ?_, ?_⟩
  · simp only [riskTotals, balanceSheet]
    exact riskTotals_partition base rates assets ⟨0, 0, 0⟩ (0, 0) (by norm_num)
  · intro e he
    simp only [riskProfile] at he
    by_cases h0 : (riskTotals assets base rates).high + (riskTotals assets base rates).med
        + (riskTotals assets base rates).low = 0
    · rw [if_pos h0] at he
      simp at he
    · rw [if_neg h0] at he
      have := (List.mem_filter.mp he).2
      exact of_decide_eq_true this
  · intro h0 t ht hpos
    simp only [riskProfile, if_neg h0]
    exact List.mem_filter.mpr ⟨ht, by simpa using hpos⟩

/-- Witness for C4 at the sample portfolio (all value in the Medium
tier). -/
theorem c4_risk_partition_witness :
    ((riskTotals sampleAssets "USD" unitRates).high
        + (riskTotals sampleAssets "USD" unitRates).med
        + (riskTotals sampleAssets "USD" unitRates).low
      = (balanceSheet sampleAssets "USD" unitRates).totalAssets)
    ∧ RiskEntry.mk "Medium (Stocks)" (riskTotals sampleAssets "USD" unitRates).med
        ∈ riskProfile sampleAssets "USD" unitRates := by
  obtain ⟨h1, _, h3⟩ := c4_risk_partition sampleAssets "USD" unitRates
  have hmed : (riskTotals sampleAssets "USD" unitRates).med = 1000 := by
    norm_num [riskTotals, riskStep, sampleAssets, assetValue, convertValue, unitRates]
    decide
  have hhigh : (riskTotals sampleAssets "USD" unitRates).high = 0 := by
    norm_num [riskTotals, riskStep, sampleAssets, assetValue, convertValue, unitRates]
    decide
  have hlow : (riskTotals sampleAssets "USD" unitRates).low = 0 := by
    norm_num [riskTotals, riskStep, sampleAssets, assetValue, convertValue, unitRates]
    decide
  refine ⟨h1, h3 (by rw [hmed, hhigh, hlow]; norm_num) _ (by simp) (by rw [hmed]; norm_num)⟩

/-! ### C5 -/

/-- C5: the top-holdings list and the P&L ranking contain only entries
derived from non-liability assets and are truncated to at most 6 and 8
entries respectively. -/
theorem c5_rankings (assets : List Asset) (base : String) (rates : ExchangeRates) :
    (topAssets assets base rates).length ≤ 6
    ∧ (pnlRanking assets base rates).length ≤ 8
    ∧ (∀ e ∈ topAssets assets base rates,
        ∃ a, a ∈ assets ∧ a.type ≠ .liability ∧ e = mkHolding base rates a)
    ∧ (∀ e ∈ pnlRanking assets base rates,
        ∃ a, a ∈ assets ∧ a.type ≠ .liability ∧ e = mkPnlEntry base rates a) := by
  refine ⟨List.length_take_le 6 _, List.length_take_le 8 _, ?_, ?_⟩
  · intro e he
    rw [topAssets] at he
    have hmem := List.take_subset 6 _ he
    rw [List.mem_insertionSort] at hmem
    obtain ⟨a, ha, rfl⟩ := List.mem_map.mp hmem
    rw [List.mem_filter] at ha
    refine ⟨a, ha.1, ?_, rfl⟩
    simpa using ha.2
  · intro e he
    rw [pnlRanking] at he
    have hmem := List.take_subset 8 _ he
    rw [List.mem_insertionSort] at hmem
    obtain ⟨a, ha, rfl⟩ := List.mem_map.mp hmem
    rw [List.mem_filter] at ha
    refine ⟨a, ha.1, ?_, rfl⟩
    simpa using ha.2

/-- Witness for C5 at the sample portfolio. -/
theorem c5_rankings_witness :
    (topAssets sampleAssets "USD" unitRates).length ≤ 6
    ∧ ∃ a, a ∈ sampleAssets ∧ a.type ≠ .liability
        ∧ mkHolding "USD" unitRates (Asset.mk "a1" "AAA" .stock 10 80 100 "USD")
            = mkHolding "USD" unitRates a := by
  obtain ⟨h1, _, h3, _⟩ := c5_rankings sampleAssets "USD" unitRates
  refine ⟨h1, h3 (mkHolding "USD" unitRates (Asset.mk "a1" "AAA" .stock 10 80 100 "USD")) ?_⟩
  simp [topAssets, sampleAssets, List.insertionSort, List.orderedInsert]

/-! ### C7 -/

/-- C7: for range ALL the reconstruction start is the earliest transaction
day minus 7 when a transaction exists, and otherwise the same calendar
date one year before (valid) today, i.e. `setFullYear(year - 1)`. -/
theorem c7_all_range_start (today : CivilDate) (txs : List Transaction)
    (hv : today.Valid) :
    (txs = [] → rangeStartDay .all today txs
        = daysFromCivil (setFullYearCivil today (today.year - 1)))
    ∧ (∀ dmin, earliestTxDay txs = some dmin →
        rangeStartDay .all today txs = dmin - 7) := by
  constructor
  · intro h
    subst h
    show daysFromCivil
        (setFullYearCivil (setFullYearCivil today (today.year - 5)) (today.year - 1)) = _
    rw [setFullYearCivil_year5_collapse today hv]
  · intro dmin h
    simp only [rangeStartDay, h]

/-- Witness for C7 at the sample date, with and without transactions. -/
theorem c7_all_range_start_witness :
    rangeStartDay .all sampleToday []
        = daysFromCivil (setFullYearCivil sampleToday (sampleToday.year - 1))
    ∧ rangeStartDay .all sampleToday [buyToday] = daysFromCivil sampleToday - 7 := by
  obtain ⟨h1, _⟩ := c7_all_range_start sampleToday [] (by decide)
  obtain ⟨_, h2⟩ := c7_all_range_start sampleToday [buyToday] (by decide)
  exact ⟨h1 rfl, h2 (daysFromCivil sampleToday) (by decide)⟩

/-! ### C9 -/

/-- A conversion error always reports a pair genuinely absent from the
table (and distinct, so no silent same-currency shortcut). -/
lemma convertChecked_error {v : ℚ} {src dst : String}
    {table : List ((String × String) × ℚ)} {e : ValuationError}
    (h : convertChecked v src dst table = .error e) :
    ∃ s d, e = .missingExchangeRate s d ∧ s ≠ d ∧ table.lookup (s, d) = none := by
  rw [convertChecked] at h
  split_ifs at h with hsd
  rcases hl : table.lookup (src, dst) with _ | r
  · rw [hl] at h
    exact ⟨src, dst, by cases h; rfl, hsd, hl⟩
  · rw [hl] at h
    cases h

/-- A missing pair makes the checked conversion fail with
`missingExchangeRate`. -/
lemma convertChecked_of_missing {v : ℚ} {src dst : String}
    {table : List ((String × String) × ℚ)}
    (h1 : src ≠ dst) (h2 : table.lookup (src, dst) = none) :
    convertChecked v src dst table = .error (.missingExchangeRate src dst) := by
  rw [convertChecked, if_neg h1, h2]

/-- C9: the snapshot builder returns a `MissingExchangeRate` error
whenever some asset's currency has no entry to the base currency in the
rate table, and the reported pair is indeed absent from the table — it
never silently falls back to a 1:1 rate. -/
theorem c9_missing_rate (assets : List Asset) (base : String)
    (table : List ((String × String) × ℚ))
    (h : ∃ a, a ∈ assets ∧ a.currency ≠ base ∧ table.lookup (a.currency, base) = none) :
    ∃ src dst, buildSnapshot assets base table = .error (.missingExchangeRate src dst)
      ∧ src ≠ dst ∧ table.lookup (src, dst) = none := by
  induction assets with
  | nil =>
    obtain ⟨a, ha, _⟩ := h
    simp at ha
  | cons a rest ih =>
    obtain ⟨b, hb, hbc, hbl⟩ := h
    rcases List.mem_cons.mp hb with hba | hbr
    · subst hba
      refine ⟨b.currency, base, ?_, hbc, hbl⟩
      rw [buildSnapshot, convertChecked_of_missing hbc hbl]
    · rcases hc1 : convertChecked (a.quantity * a.currentPrice) a.currency base table
        with e1 | v1
      · obtain ⟨s, d, he, hsd, hl⟩ := convertChecked_error hc1
        exact ⟨s, d, by rw [buildSnapshot, hc1, he], hsd, hl⟩
      · rcases hc2 : convertChecked (a.quantity * a.avgCost) a.currency base table
          with e2 | v2
        · obtain ⟨s, d, he, hsd, hl⟩ := convertChecked_error hc2
          exact ⟨s, d, by rw [buildSnapshot, hc1, hc2, he], hsd, hl⟩
        · obtain ⟨s, d, hrest, hsd, hl⟩ := ih ⟨b, hbr, hbc, hbl⟩
          exact ⟨s, d, by rw [buildSnapshot, hc1, hc2, hrest], hsd, hl⟩

/-- Fixture: a euro asset, with no EUR→USD entry anywhere. -/
def eurAsset : Asset := ⟨"e1", "EEE", .stock, 1, 1, 1, "EUR"⟩

/-- Witness for C9: the one-asset euro portfolio against an empty table. -/
theorem c9_missing_rate_witness :
    ∃ src dst, buildSnapshot [eurAsset] "USD" [] = .error (.missingExchangeRate src dst)
      ∧ src ≠ dst ∧ List.lookup (src, dst) ([] : List ((String × String) × ℚ)) = none :=
  c9_missing_rate [eurAsset] "USD" []
    ⟨eurAsset, List.mem_singleton.mpr rfl, by decide, rfl⟩

end InvestFlow
